import Mathlib

/-!
Shallow embedding of the pitch-analysis core of the Ump-Pitch repository
(src/mlbpitch.py and src/mlbpitchprod.py): pitch extraction, umpire-call
classification, rule-book strike-zone estimation, empirical-zone (convex
hull) construction and ball/strike consistency checking.

Python floats are modelled as rationals (`ℚ`).  The external geometry
libraries — `scipy.spatial.ConvexHull` and the shapely `Polygon`/`Point` pair —
are modelled by executable Lean functions whose doc comments state the
modelled library behaviour.
-/

namespace UmpPitch

/-- A plate-crossing location `(pX, pZ)` in feet. -/
abbrev Pt : Type := ℚ × ℚ

/-- Normalized pitch record: the tuple
`(pX, pZ, pitch_type, umpire_call, sz_top, sz_bottom)` built by
`get_play_data` (src/mlbpitch.py lines 89-93, src/mlbpitchprod.py
lines 97-102). -/
structure PitchRecord where
  x : ℚ
  z : ℚ
  pitch_type : String
  call : String
  sz_top : Option ℚ
  sz_bottom : Option ℚ
  deriving DecidableEq, Repr

/-- Raw feed: `event.pitchData.coordinates` with optional `pX`/`pZ`. -/
structure Coordinates where
  pX : Option ℚ
  pZ : Option ℚ
  deriving DecidableEq, Repr

/-- Raw feed: `event.pitchData`. -/
structure PitchData where
  coordinates : Option Coordinates
  strikeZoneTop : Option ℚ
  strikeZoneBottom : Option ℚ
  deriving DecidableEq, Repr

/-- Raw feed: a labelled object carrying an optional `description` string
(`event.details.type` and `event.details.call`). -/
structure LabelObj where
  description : Option String
  deriving DecidableEq, Repr

/-- Raw feed: `event.details`. -/
structure Details where
  type : Option LabelObj
  call : Option LabelObj
  deriving DecidableEq, Repr

/-- Raw feed: one element of `play.playEvents`. -/
structure PlayEvent where
  isPitch : Bool
  pitchData : Option PitchData
  details : Details
  deriving DecidableEq, Repr

/-- Raw feed: one element of `plays.allPlays`, together with the
`play.about.halfInning` marker used by the home/away split of
src/mlbpitchprod.py. -/
structure Play where
  halfInning : String
  playEvents : List PlayEvent
  deriving DecidableEq, Repr

/-- Pitch-type label with the safe fallback of src/mlbpitch.py line 89:
`details.type.description` when both keys exist, else "Unknown". -/
def pitchTypeOf (e : PlayEvent) : String :=
  match e.details.type with
  | some t =>
    match t.description with
    | some d => d
    | none => "Unknown"
  | none => "Unknown"

/-- Umpire-call label with the safe fallback of src/mlbpitch.py line 90:
`details.call.description` when both keys exist, else "Unknown". -/
def umpireCallOf (e : PlayEvent) : String :=
  match e.details.call with
  | some c =>
    match c.description with
    | some d => d
    | none => "Unknown"
  | none => "Unknown"

/-- One iteration of the extraction loop body (src/mlbpitch.py
lines 84-93): for an event flagged as a pitch, a record is emitted when
`pitchData`, `coordinates`, `pX` and `pZ` are all present; otherwise the
event is skipped. -/
def extractEvent (e : PlayEvent) : Option PitchRecord :=
  if e.isPitch then
    match e.pitchData with
    | none => none
    | some pd =>
      match pd.coordinates with
      | none => none
      | some c =>
        match c.pX, c.pZ with
        | some px, some pz =>
          some ⟨px, pz, pitchTypeOf e, umpireCallOf e,
                pd.strikeZoneTop, pd.strikeZoneBottom⟩
        | _, _ => none
  else none

/-- The extracted pitch sequence in feed order (the nested loops of
src/mlbpitch.py lines 81-93). -/
def feedPitches (plays : List Play) : List PitchRecord :=
  plays.foldl (fun acc pl => acc ++ pl.playEvents.filterMap extractEvent) []

/-- Extraction core of `get_play_data` (src/mlbpitch.py lines 81-100):
`None` when no pitch was extracted, otherwise the pitch list.  The
team/pitcher/umpire metadata and the network-failure early returns are
outside the model. -/
def get_play_data (plays : List Play) : Option (List PitchRecord) :=
  if (feedPitches plays).isEmpty then none else some (feedPitches plays)

/-- Extraction loop of the split `get_play_data`
(src/mlbpitchprod.py lines 88-106): records from plays whose half-inning
marker is "top" go to the home list, all others to the away list. -/
def splitPitches (plays : List Play) : List PitchRecord × List PitchRecord :=
  plays.foldl
    (fun acc pl => pl.playEvents.foldl
      (fun acc2 e =>
        match extractEvent e with
        | none => acc2
        | some r =>
          if pl.halfInning = "top" then (acc2.1 ++ [r], acc2.2)
          else (acc2.1, acc2.2 ++ [r]))
      acc)
    ([], [])

/-- Null test of the split `get_play_data` (src/mlbpitchprod.py
lines 108-113): `None` exactly when both the home and the away list are
empty. -/
def get_play_data_split (plays : List Play) :
    Option (List PitchRecord × List PitchRecord) :=
  if (splitPitches plays).1.isEmpty && (splitPitches plays).2.isEmpty then none
  else some (splitPitches plays)

/-- Bucket filter `p[3] == "Ball"` (src/mlbpitch.py line 186). -/
def ballsOf (pd : List PitchRecord) : List PitchRecord :=
  pd.filter (fun p => p.call == "Ball")

/-- Bucket filter `p[3] == "Called Strike"` (src/mlbpitch.py line 187). -/
def calledStrikesOf (pd : List PitchRecord) : List PitchRecord :=
  pd.filter (fun p => p.call == "Called Strike")

/-- Bucket filter `p[3] == "Swinging Strike"` (src/mlbpitch.py line 188). -/
def swingingStrikesOf (pd : List PitchRecord) : List PitchRecord :=
  pd.filter (fun p => p.call == "Swinging Strike")

/-- Bucket filter `p[3] == "Foul"` (src/mlbpitch.py line 189). -/
def foulsOf (pd : List PitchRecord) : List PitchRecord :=
  pd.filter (fun p => p.call == "Foul")

/-- Character-sequence prefix test: the first list is a prefix of the
second. -/
def charsBeginWith : List Char → List Char → Bool
  | [], _ => true
  | _ :: _, [] => false
  | c :: cs, d :: ds => if c = d then charsBeginWith cs ds else false

/-- Model of Python `str.startswith`: `s` begins with the literal prefix
`pre`, compared character by character. -/
def strStartsWith (s pre : String) : Bool := charsBeginWith pre.data s.data

/-- Bucket filter `p[3].startswith("In play")` (src/mlbpitch.py line 190). -/
def inPlayOf (pd : List PitchRecord) : List PitchRecord :=
  pd.filter (fun p => strStartsWith p.call ("In play"))

/-- The records matched by none of the five bucket filters of
`generate_plot_for_game`; the `Unknown` bucket of the spec of the six-way
`CallKind` partition. -/
def unknownsOf (pd : List PitchRecord) : List PitchRecord :=
  pd.filter (fun p =>
    !(p.call == "Ball" || p.call == "Called Strike" ||
      p.call == "Swinging Strike" || p.call == "Foul" ||
      strStartsWith p.call ("In play")))

/-- Python truthiness of an optional float: `None` and `0.0` are falsy.
This is the `if p[4] and p[5]` test of src/mlbpitch.py line 114. -/
def truthyQ : Option ℚ → Bool
  | none => false
  | some v => if v = 0 then false else true

/-- The averaged rule-book strike-zone rectangle. -/
structure StrikeZoneRect where
  left : ℚ
  right : ℚ
  top : ℚ
  bottom : ℚ
  deriving DecidableEq, Repr

/-- Arithmetic mean (`np.mean`) of a list of rationals. -/
def listMean (l : List ℚ) : ℚ := l.sum / l.length

/-- The records passing the zone-bounds truthiness filter, i.e. the
`valid_sz` comprehension of src/mlbpitch.py line 114. -/
def validSZ (pd : List PitchRecord) : List PitchRecord :=
  pd.filter (fun p => truthyQ p.sz_top && truthyQ p.sz_bottom)

/-- The fixed half-plate extent `0.708333` of src/mlbpitch.py
lines 118-119, as the exact rational `708333/1000000`. -/
def plateHalfWidth : ℚ := 708333 / 1000000

/-- Core of `add_strike_zone` (src/mlbpitch.py lines 113-127): no
rectangle when `valid_sz` is empty, otherwise means of the surviving
zone bounds with the fixed half-plate extents. -/
def add_strike_zone (pd : List PitchRecord) : Option StrikeZoneRect :=
  if (validSZ pd).isEmpty then none
  else
    some { left := -plateHalfWidth, right := plateHalfWidth,
           top := listMean ((validSZ pd).map (fun p => p.sz_top.getD 0)),
           bottom := listMean ((validSZ pd).map (fun p => p.sz_bottom.getD 0)) }

/-- Cross product `(a - o) × (b - o)`: positive when the turn `o → a → b`
is counter-clockwise, zero when the three points are collinear. -/
def crossQ (o a b : Pt) : ℚ :=
  (a.1 - o.1) * (b.2 - o.2) - (a.2 - o.2) * (b.1 - o.1)

/-- True when every triple of input points is collinear, i.e. the point
set has affine rank below 2.  This is exactly the degenerate-input
condition under which Qhull (`scipy.spatial.ConvexHull`) raises
`QhullError` instead of returning a hull. -/
def allCollinear (pts : List Pt) : Bool :=
  pts.all (fun a => pts.all (fun b => pts.all (fun c =>
    decide (crossQ a b c = 0))))

/-- The error that `ConvexHull` of scipy raises on degenerate input. -/
inductive QhullError where
  | degenerateInput
  deriving DecidableEq, Repr

/-- Lexicographic comparison on points, x first. -/
def ptLE (p q : Pt) : Bool :=
  decide (p.1 < q.1 ∨ (p.1 = q.1 ∧ p.2 ≤ q.2))

/-- Insertion step of the lexicographic insertion sort. -/
def insertPt (p : Pt) : List Pt → List Pt
  | [] => [p]
  | q :: rest => if ptLE p q then p :: q :: rest else q :: insertPt p rest

/-- Lexicographic insertion sort of a point list. -/
def sortPts : List Pt → List Pt
  | [] => []
  | p :: rest => insertPt p (sortPts rest)

/-- Pop loop of the monotone-chain hull scan: drop stack entries that do not
make a strict counter-clockwise turn towards `p`.  The stack is kept
most-recent-first. -/
def popTurn (p : Pt) : List Pt → List Pt
  | a :: b :: rest => if crossQ b a p ≤ 0 then popTurn p (b :: rest) else a :: b :: rest
  | l => l

/-- Push step of the monotone chain. -/
def chainStep (st : List Pt) (p : Pt) : List Pt := p :: popTurn p st

/-- One half (lower or upper) of the monotone-chain hull, in scan order. -/
def halfHull (l : List Pt) : List Pt := (l.foldl chainStep []).reverse

/-- Model of the external 2-D convex hull (`scipy.spatial.ConvexHull`):
`hull.vertices` lists the extreme points of the input in counter-clockwise
order, computed here by the monotone-chain algorithm.  It is only consulted on
non-degenerate input; on an all-collinear point set scipy raises
`QhullError` instead (see `add_umpire_strike_zone`). -/
def hullVertices (pts : List Pt) : List Pt :=
  let s := sortPts pts
  (halfHull s).dropLast ++ (halfHull s.reverse).dropLast

/-- Consecutive edges of a polygon given as an explicitly closed vertex
ring (first vertex repeated as the last element). -/
def ringEdges (poly : List Pt) : List (Pt × Pt) := poly.zip poly.tail

/-- Model of shapely `Polygon(hull_points).contains(Point(x, z))` for the
convex hull ring: true exactly for points in the topological interior of
the polygon; a point on an edge or a vertex is NOT contained (the shapely
`contains` test is strict).  For a convex ring this is: strictly on the same
side of every edge, for either orientation of the ring. -/
def polygonContains (poly : List Pt) (p : Pt) : Bool :=
  (ringEdges poly).all (fun e => decide (0 < crossQ e.1 e.2 p)) ||
  (ringEdges poly).all (fun e => decide (crossQ e.1 e.2 p < 0))

/-- SPEC-side definition, following the words of the claim for refinement
comparison: boundary-inclusive ("closed") containment in the convex hull
polygon — on or inside every edge of the ring, for either orientation
of the ring. -/
def specClosedContains (poly : List Pt) (p : Pt) : Bool :=
  (ringEdges poly).all (fun e => decide (0 ≤ crossQ e.1 e.2 p)) ||
  (ringEdges poly).all (fun e => decide (crossQ e.1 e.2 p ≤ 0))

/-- Core of `add_inconsistent_calls` (src/mlbpitch.py lines 150-166,
src/mlbpitchprod.py lines 170-186): the balls whose point the hull
polygon contains, in input order. -/
def add_inconsistent_calls (balls : List PitchRecord) (hull_polygon : List Pt) :
    List PitchRecord :=
  balls.filter (fun b => polygonContains hull_polygon (b.x, b.z))

/-- Core of `add_umpire_strike_zone` (src/mlbpitch.py lines 129-148):
with a non-empty called-strike bucket of at least 3 points, compute the
convex hull, close it by repeating the first vertex, and run the
consistency check on the balls against it; with fewer points nothing is
produced.  On an all-collinear point set the scipy `ConvexHull` raises
`QhullError`, which propagates uncaught (`Except.error`); the unreachable
empty-hull case maps to the numpy indexing error `hull_points[0]` would
raise. -/
def add_umpire_strike_zone (called_strikes balls : List PitchRecord) :
    Except QhullError (Option (List Pt × List PitchRecord)) :=
  if called_strikes.isEmpty then .ok none
  else if 3 ≤ (called_strikes.map (fun p => (p.x, p.z))).length then
    if allCollinear (called_strikes.map (fun p => (p.x, p.z))) then
      .error .degenerateInput
    else
      match hullVertices (called_strikes.map (fun p => (p.x, p.z))) with
      | [] => .error .degenerateInput
      | v :: vs =>
        .ok (some ((v :: vs) ++ [v],
          add_inconsistent_calls balls ((v :: vs) ++ [v])))
  else .ok none

/-- The structured outcome of one plot generation. -/
structure PlotOutput where
  balls : List PitchRecord
  called_strikes : List PitchRecord
  swinging_strikes : List PitchRecord
  fouls : List PitchRecord
  in_play : List PitchRecord
  strike_zone : Option StrikeZoneRect
  empirical_zone : Option (List Pt)
  inconsistent : List PitchRecord
  last_pitch : Option PitchRecord
  deriving DecidableEq, Repr

deriving instance DecidableEq for Except

/-- The common part of the plot output: the five bucket traces, the
averaged strike zone and the last pitch `pitch_data[-1]`, together with
whatever empirical zone and inconsistency flags were produced. -/
def basePlotOutput (pitches : List PitchRecord) (zone : Option (List Pt))
    (inc : List PitchRecord) : PlotOutput :=
  { balls := ballsOf pitches
    called_strikes := calledStrikesOf pitches
    swinging_strikes := swingingStrikesOf pitches
    fouls := foulsOf pitches
    in_play := inPlayOf pitches
    strike_zone := add_strike_zone pitches
    empirical_zone := zone
    inconsistent := inc
    last_pitch := pitches.getLast? }

/-- Core of `generate_plot_for_game` (src/mlbpitch.py lines 178-221):
empty input yields an empty figure (no structured output, `.ok none`);
otherwise the classified buckets, the averaged strike zone, the empirical
zone with its inconsistency flags (a Qhull failure propagating as an
error), and the last pitch `pitch_data[-1]`. -/
def generate_plot_for_game (pitches : List PitchRecord) :
    Except QhullError (Option PlotOutput) :=
  if pitches.isEmpty then .ok none
  else
    match add_umpire_strike_zone (calledStrikesOf pitches) (ballsOf pitches) with
    | .error e => .error e
    | .ok none => .ok (some (basePlotOutput pitches none []))
    | .ok (some (poly, inc)) => .ok (some (basePlotOutput pitches (some poly) inc))

/-- The last-pitch choice of the split pipeline (src/mlbpitchprod.py
lines 237-240): the last home pitch whenever any home pitch exists, else
the last away pitch, else nothing. -/
def prod_last_pitch_choice (home away : List PitchRecord) : Option PitchRecord :=
  if !home.isEmpty then home.getLast?
  else if !away.isEmpty then away.getLast?
  else none

/-- SPEC-side projection, following the words of the claim: the `zone_top`
values of every record on which `zone_top` is present. -/
def specPresentTops (pd : List PitchRecord) : List ℚ :=
  (pd.filter (fun p => p.sz_top.isSome)).map (fun p => p.sz_top.getD 0)

/-- A raw feed event carrying a full coordinate pair and both labels, used
to build concrete test inputs. -/
def pitchEvent (x z : ℚ) (ty call : String) : PlayEvent :=
  ⟨true, some ⟨some ⟨some x, some z⟩, none, none⟩, ⟨some ⟨some ty⟩, some ⟨some call⟩⟩⟩

/-- Concrete inputs: a called-strike triangle with a ball on the hull edge
and a ball strictly inside, exercising the consistency checker. -/
def c1s1 : PitchRecord := ⟨0, 0, "Fastball", "Called Strike", none, none⟩

def c1s2 : PitchRecord := ⟨2, 0, "Fastball", "Called Strike", none, none⟩

def c1s3 : PitchRecord := ⟨0, 2, "Fastball", "Called Strike", none, none⟩

def c1edgeBall : PitchRecord := ⟨1, 0, "Slider", "Ball", none, none⟩

def c1inBall : PitchRecord := ⟨1/2, 1/2, "Slider", "Ball", none, none⟩

def c1ring : List Pt := [(0, 0), (2, 0), (0, 2), (0, 0)]

/-- Concrete input: three collinear called strikes on the diagonal. -/
def c2a : PitchRecord := ⟨0, 0, "Fastball", "Called Strike", none, none⟩

def c2b : PitchRecord := ⟨1, 1, "Fastball", "Called Strike", none, none⟩

def c2c : PitchRecord := ⟨2, 2, "Fastball", "Called Strike", none, none⟩

/-- Concrete input: a record whose zone bounds are present but zero, and a
pair of records with partially present bounds. -/
def c3zero : PitchRecord := ⟨0, 1, "Fastball", "Ball", some 0, some 0⟩

def c3paired : PitchRecord := ⟨0, 1, "Fastball", "Ball", some 2, some 1⟩

def c3toponly : PitchRecord := ⟨0, 1, "Fastball", "Ball", some 4, none⟩

/-- The concrete rectangle computed by the estimator on `[c3paired]`. -/
def c3rect : StrikeZoneRect := (add_strike_zone [c3paired]).getD ⟨0, 0, 0, 0⟩

/-- Concrete input: one home (top-half) pitch followed in feed order by
one away (bottom-half) pitch. -/
def c4homeRec : PitchRecord := ⟨0, 1, "Four-Seam Fastball", "Ball", none, none⟩

def c4awayRec : PitchRecord := ⟨1, 2, "Slider", "Foul", none, none⟩

def c4plays : List Play :=
  [⟨"top", [pitchEvent 0 1 ("Four-Seam Fastball") ("Ball")]⟩,
   ⟨"bottom", [pitchEvent 1 2 ("Slider") ("Foul")]⟩]

/-- Concrete input: three collinear called strikes on the x-axis. -/
def c5a : PitchRecord := ⟨0, 0, "Fastball", "Called Strike", none, none⟩

def c5b : PitchRecord := ⟨1, 0, "Fastball", "Called Strike", none, none⟩

def c5c : PitchRecord := ⟨2, 0, "Fastball", "Called Strike", none, none⟩

/-- Concrete input: a non-collinear called-strike triangle for the
zone-shape witness. -/
def c5d : PitchRecord := ⟨0, 0, "Fastball", "Called Strike", none, none⟩

def c5e : PitchRecord := ⟨4, 0, "Fastball", "Called Strike", none, none⟩

def c5f : PitchRecord := ⟨0, 4, "Fastball", "Called Strike", none, none⟩

/-- Concrete input: one ball and one called strike — too few strikes for a
hull, so the zone is undefined and nothing is flagged. -/
def c6pitches : List PitchRecord :=
  [⟨0, 1, "Fastball", "Ball", none, none⟩,
   ⟨0, 2, "Slider", "Called Strike", none, none⟩]

/-- Fallback output used only to totalize projections on concrete runs. -/
def emptyPlotOutput : PlotOutput := ⟨[], [], [], [], [], none, none, [], none⟩

/-- The concrete plot output computed by the pipeline on `c6pitches`. -/
def c6out : PlotOutput :=
  ((generate_plot_for_game c6pitches).toOption.join).getD emptyPlotOutput

/-- Concrete input: a pitch event with coordinates but no type/call
labels, exercising the "Unknown" fallbacks. -/
def c9event : PlayEvent :=
  ⟨true, some ⟨some ⟨some 1, some 2⟩, none, none⟩, ⟨none, none⟩⟩

def c9rec : PitchRecord := ⟨1, 2, "Unknown", "Unknown", none, none⟩

/-- Concrete input: a two-play feed for the safety witness. -/
def c10plays : List Play :=
  [⟨"top", [pitchEvent 0 1 ("Fastball") ("Ball")]⟩,
   ⟨"bottom", [pitchEvent 1 2 ("Slider") ("Foul")]⟩]

def c10homeRec : PitchRecord := ⟨0, 1, "Fastball", "Ball", none, none⟩

def c10awayRec : PitchRecord := ⟨1, 2, "Slider", "Foul", none, none⟩

/-- The concrete plot output computed by the pipeline on the extracted
`c10plays` records. -/
def c10out : PlotOutput :=
  ((generate_plot_for_game [c10homeRec, c10awayRec]).toOption.join).getD emptyPlotOutput

/-- With fewer than 3 called strikes the zone builder produces nothing
and succeeds. -/
theorem umpire_zone_lt3 (called balls : List PitchRecord)
    (h : called.length < 3) :
    add_umpire_strike_zone called balls = .ok none := by
  unfold add_umpire_strike_zone
  rcases called with _ | ⟨c, cs⟩
  · rfl
  · have hlen : ¬ 3 ≤ ((c :: cs).map (fun p => (p.x, p.z))).length := by
      rw [List.length_map]; omega
    rw [if_neg (by simp), if_neg hlen]

/-- With at least 3 called strikes that are all collinear, the modelled
Qhull error propagates out of the zone builder. -/
theorem umpire_zone_collinear (called balls : List PitchRecord)
    (h3 : 3 ≤ called.length)
    (hc : allCollinear (called.map (fun p => (p.x, p.z))) = true) :
    add_umpire_strike_zone called balls = .error .degenerateInput := by
  unfold add_umpire_strike_zone
  have hne : ¬ (called.isEmpty = true) := by
    rcases called with _ | _
    · simp at h3
    · simp
  have hlen : 3 ≤ ((called).map (fun p => (p.x, p.z))).length := by
    rw [List.length_map]; exact h3
  rw [if_neg hne, if_pos hlen, if_pos hc]

/-- Inversion of a successful zone construction: the polygon is the hull
vertex list closed by its first vertex, and the flags come from the
consistency checker run against that polygon. -/
theorem umpire_zone_ok_some (called balls : List PitchRecord)
    (poly : List Pt) (inc : List PitchRecord)
    (h : add_umpire_strike_zone called balls = .ok (some (poly, inc))) :
    ∃ v vs, hullVertices (called.map (fun p => (p.x, p.z))) = v :: vs ∧
      poly = (v :: vs) ++ [v] ∧
      inc = add_inconsistent_calls balls poly ∧
      3 ≤ called.length ∧
      allCollinear (called.map (fun p => (p.x, p.z))) = false := by
  by_cases hemp : called.isEmpty = true
  · unfold add_umpire_strike_zone at h
    rw [if_pos hemp] at h
    exact absurd h (by simp)
  · by_cases hlen : 3 ≤ (called.map (fun p => (p.x, p.z))).length
    · by_cases hcol : allCollinear (called.map (fun p => (p.x, p.z))) = true
      · unfold add_umpire_strike_zone at h
        rw [if_neg hemp, if_pos hlen, if_pos hcol] at h
        exact absurd h (by simp)
      · have hcol2 : allCollinear (called.map (fun p => (p.x, p.z))) = false := by
          revert hcol
          cases allCollinear (called.map (fun p => (p.x, p.z))) <;> simp
        unfold add_umpire_strike_zone at h
        rw [if_neg hemp, if_pos hlen, if_neg hcol] at h
        cases hv : hullVertices (called.map (fun p => (p.x, p.z))) with
        | nil =>
          rw [hv] at h
          exact absurd h (by simp)
        | cons v vs =>
          rw [hv] at h
          simp only [Except.ok.injEq, Option.some.injEq, Prod.mk.injEq] at h
          obtain ⟨hp, hi⟩ := h
          refine ⟨v, vs, rfl, hp.symm, ?_, ?_, hcol2⟩
          · rw [← hp]
            exact hi.symm
          · rw [List.length_map] at hlen
            exact hlen
    · unfold add_umpire_strike_zone at h
      rw [if_neg hemp, if_neg hlen] at h
      exact absurd h (by simp)

/-- Claim C1 (amended): for every defined `EmpiricalZone` polygon, a ball
record is reported as an `InconsistentCall` iff it is in the ball bucket
and its `(x, z)` point lies strictly inside the polygon (shapely
`contains` semantics); a ball exactly on a hull edge or vertex is NOT
flagged. -/
theorem inconsistent_iff_strictly_inside (called balls : List PitchRecord)
    (poly : List Pt) (inc : List PitchRecord) (b : PitchRecord)
    (h : add_umpire_strike_zone called balls = .ok (some (poly, inc))) :
    b ∈ inc ↔ b ∈ balls ∧ polygonContains poly (b.x, b.z) = true := by
  obtain ⟨v, vs, hv, hp, hi, -, -⟩ := umpire_zone_ok_some called balls poly inc h
  rw [hi]
  exact List.mem_filter

/-- Witness for the amended theorem of claim C1: on the concrete triangle, the
strictly interior ball is flagged. -/
theorem inconsistent_iff_strictly_inside_witness :
    c1inBall ∈ [c1inBall] ∧ polygonContains c1ring (c1inBall.x, c1inBall.z) = true :=
  (inconsistent_iff_strictly_inside [c1s1, c1s2, c1s3] [c1inBall] c1ring [c1inBall]
    c1inBall (by decide!)).mp (by decide!)

/-- Counterexample to claim C1 as stated: on the concrete triangle zone,
the ball lying exactly on a hull edge satisfies boundary-inclusive
containment in the closed hull but is not reported as inconsistent. -/
theorem boundary_ball_not_flagged :
    ballsOf [c1s1, c1s2, c1s3, c1edgeBall] = [c1edgeBall] ∧
    add_umpire_strike_zone (calledStrikesOf [c1s1, c1s2, c1s3, c1edgeBall])
      (ballsOf [c1s1, c1s2, c1s3, c1edgeBall]) = .ok (some (c1ring, [])) ∧
    specClosedContains c1ring (c1edgeBall.x, c1edgeBall.z) = true := by decide!

/-- Claim C2 (amended): a called-strike bucket of 3 or more points that
are all collinear makes the hull routine raise; the error propagates out
of the zone builder instead of yielding the silent "undefined" outcome of
the fewer-than-3 case. -/
theorem collinear_bucket_errors (called balls : List PitchRecord)
    (h3 : 3 ≤ called.length)
    (hc : allCollinear (called.map (fun p => (p.x, p.z))) = true) :
    add_umpire_strike_zone called balls = .error .degenerateInput :=
  umpire_zone_collinear called balls h3 hc

/-- Witness for the amended theorem of claim C2 at the concrete collinear
bucket. -/
theorem collinear_bucket_errors_witness :
    add_umpire_strike_zone [c2a, c2b, c2c] [] = .error .degenerateInput :=
  collinear_bucket_errors [c2a, c2b, c2c] [] (by decide) (by decide!)

/-- Counterexample to claim C2 as stated: three collinear called strikes
produce an error, not the `.ok none` outcome of the two-point case — the
outcomes differ. -/
theorem collinear_bucket_not_undefined :
    3 ≤ ([c2a, c2b, c2c] : List PitchRecord).length ∧
    allCollinear ([c2a, c2b, c2c].map (fun p => (p.x, p.z))) = true ∧
    add_umpire_strike_zone [c2a, c2b, c2c] [] = .error .degenerateInput ∧
    add_umpire_strike_zone [c2a, c2b] [] = .ok none := by decide!

/-- Claim C5 (amended): fewer than 3 points yield no zone; at least 3
all-collinear points yield the hull error; and every produced zone is the
hull vertex sequence in the winding order of the hull algorithm closed by
repeating the first vertex as the last element. -/
theorem empirical_zone_cases (called balls : List PitchRecord) :
    (called.length < 3 → add_umpire_strike_zone called balls = .ok none) ∧
    (3 ≤ called.length →
      allCollinear (called.map (fun p => (p.x, p.z))) = true →
      add_umpire_strike_zone called balls = .error .degenerateInput) ∧
    (∀ poly inc, add_umpire_strike_zone called balls = .ok (some (poly, inc)) →
      poly = hullVertices (called.map (fun p => (p.x, p.z))) ++
        (hullVertices (called.map (fun p => (p.x, p.z)))).take 1 ∧
      poly.head? = poly.getLast?) := by
  refine ⟨umpire_zone_lt3 called balls, umpire_zone_collinear called balls, ?_⟩
  intro poly inc h
  obtain ⟨v, vs, hv, hp, -, -, -⟩ := umpire_zone_ok_some called balls poly inc h
  subst hp
  rw [hv]
  refine ⟨rfl, ?_⟩
  rw [List.getLast?_concat]
  rfl

/-- Witness for the amended theorem of claim C5: the zone of the concrete triangle
is its hull closed by the repeated first vertex. -/
theorem empirical_zone_cases_witness :
    ([(0, 0), (4, 0), (0, 4), (0, 0)] : List Pt) =
      hullVertices ([c5d, c5e, c5f].map (fun p => (p.x, p.z))) ++
        (hullVertices ([c5d, c5e, c5f].map (fun p => (p.x, p.z)))).take 1 ∧
    ([(0, 0), (4, 0), (0, 4), (0, 0)] : List Pt).head? =
      ([(0, 0), (4, 0), (0, 4), (0, 0)] : List Pt).getLast? :=
  (empirical_zone_cases [c5d, c5e, c5f] []).2.2
    [(0, 0), (4, 0), (0, 4), (0, 0)] [] (by decide!)

/-- Counterexample to claim C5 as stated: a bucket of 3 (collinear)
points yields no closed-hull polygon at all — the computation errors. -/
theorem three_point_zone_not_closed_hull :
    3 ≤ ([c5a, c5b, c5c] : List PitchRecord).length ∧
    add_umpire_strike_zone [c5a, c5b, c5c] [] = .error .degenerateInput := by decide!

/-- Claim C3 (amended): the rectangle is undefined iff no record carries
both zone bounds truthy (present and non-zero, Python truthiness);
otherwise left/right are exactly `∓708333/1000000` and top/bottom are the
means of the bounds over the records whose BOTH bounds are truthy. -/
theorem strike_zone_characterization (pd : List PitchRecord) :
    (add_strike_zone pd = none ↔
      ∀ r ∈ pd, ¬(truthyQ r.sz_top = true ∧ truthyQ r.sz_bottom = true)) ∧
    (∀ rect, add_strike_zone pd = some rect →
      rect.left = -(708333 / 1000000 : ℚ) ∧ rect.right = (708333 / 1000000 : ℚ) ∧
      rect.top = listMean ((validSZ pd).map (fun p => p.sz_top.getD 0)) ∧
      rect.bottom = listMean ((validSZ pd).map (fun p => p.sz_bottom.getD 0))) := by
  have key : validSZ pd = [] ↔
      ∀ r ∈ pd, ¬(truthyQ r.sz_top = true ∧ truthyQ r.sz_bottom = true) := by
    rw [validSZ, List.filter_eq_nil_iff]
    constructor
    · intro hml r hr hand
      exact hml r hr (by rw [Bool.and_eq_true]; exact hand)
    · intro hml r hr hand
      rw [Bool.and_eq_true] at hand
      exact hml r hr hand
  constructor
  · unfold add_strike_zone
    by_cases hemp : (validSZ pd).isEmpty = true
    · rw [if_pos hemp]
      exact ⟨fun _ => key.mp (List.isEmpty_iff.mp hemp), fun _ => rfl⟩
    · rw [if_neg hemp]
      constructor
      · intro hc
        exact absurd hc (by simp)
      · intro hall
        exact absurd (List.isEmpty_iff.mpr (key.mpr hall)) hemp
  · intro rect h
    unfold add_strike_zone at h
    by_cases hemp : (validSZ pd).isEmpty = true
    · rw [if_pos hemp] at h
      exact absurd h (by simp)
    · rw [if_neg hemp] at h
      simp only [Option.some.injEq] at h
      subst h
      exact ⟨rfl, rfl, rfl, rfl⟩

/-- Witness for the amended theorem of claim C3 at the concrete one-record
input with truthy bounds. -/
theorem strike_zone_characterization_witness :
    c3rect.left = -(708333 / 1000000 : ℚ) ∧ c3rect.right = (708333 / 1000000 : ℚ) ∧
    c3rect.top = listMean ((validSZ [c3paired]).map (fun p => p.sz_top.getD 0)) ∧
    c3rect.bottom = listMean ((validSZ [c3paired]).map (fun p => p.sz_bottom.getD 0)) :=
  (strike_zone_characterization [c3paired]).2 c3rect (by decide!)

/-- Counterexample to claim C3 as stated: a record whose zone bounds are
present but equal to `0.0` does NOT count as carrying them (the rectangle
stays undefined), and a present-but-unpaired `zone_top` is excluded from
the top average (the code answers 2, the claimed mean of all present tops
is 3). -/
theorem strike_zone_presence_counterexample :
    (c3zero.sz_top.isSome = true ∧ c3zero.sz_bottom.isSome = true ∧
      add_strike_zone [c3zero] = none) ∧
    (add_strike_zone [c3paired, c3toponly]).map StrikeZoneRect.top ≠
      some (listMean (specPresentTops [c3paired, c3toponly])) := by decide!

/-- Claim C6: the inconsistent set is a subset of the ball bucket and is
empty whenever the empirical zone is undefined; with fewer than 3 called
strikes the pipeline still succeeds, with no zone and no flags. -/
theorem inconsistent_subset_and_degrade (pitches : List PitchRecord) :
    (∀ out, generate_plot_for_game pitches = .ok (some out) →
      (∀ b ∈ out.inconsistent, b ∈ out.balls) ∧
      (out.empirical_zone = none → out.inconsistent = [])) ∧
    ((calledStrikesOf pitches).length < 3 →
      ∃ res, generate_plot_for_game pitches = .ok res ∧
        ∀ out, res = some out → out.empirical_zone = none ∧ out.inconsistent = []) := by
  constructor
  · intro out h
    by_cases hemp : pitches.isEmpty = true
    · unfold generate_plot_for_game at h
      rw [if_pos hemp] at h
      exact absurd h (by simp)
    · unfold generate_plot_for_game at h
      rw [if_neg hemp] at h
      cases hz : add_umpire_strike_zone (calledStrikesOf pitches) (ballsOf pitches) with
      | error e =>
        rw [hz] at h
        exact absurd h (by simp)
      | ok z =>
        rw [hz] at h
        cases z with
        | none =>
          simp only [Except.ok.injEq, Option.some.injEq] at h
          subst h
          refine ⟨fun b hb => absurd hb ?_, fun _ => rfl⟩
          simp [basePlotOutput]
        | some pz =>
          obtain ⟨poly, inc⟩ := pz
          simp only [Except.ok.injEq, Option.some.injEq] at h
          subst h
          obtain ⟨v, vs, hv, hp, hi, -, -⟩ := umpire_zone_ok_some _ _ _ _ hz
          constructor
          · intro b hb
            simp only [basePlotOutput] at hb ⊢
            rw [hi] at hb
            simp only [add_inconsistent_calls] at hb
            exact (List.mem_filter.mp hb).1
          · intro hzn
            simp only [basePlotOutput] at hzn
            exact absurd hzn (by simp)
  · intro hlen
    by_cases hemp : pitches.isEmpty = true
    · refine ⟨none, ?_, ?_⟩
      · unfold generate_plot_for_game
        rw [if_pos hemp]
      · intro out h
        exact absurd h (by simp)
    · have hz := umpire_zone_lt3 (calledStrikesOf pitches) (ballsOf pitches) hlen
      refine ⟨some (basePlotOutput pitches none []), ?_, ?_⟩
      · unfold generate_plot_for_game
        rw [if_neg hemp, hz]
      · intro out h
        simp only [Option.some.injEq] at h
        subst h
        exact ⟨rfl, rfl⟩

/-- Witness for the theorem of claim C6 on a concrete input with a single
called strike: the run succeeds with no zone and no flags, and the flag
set is (vacuously) inside the ball bucket. -/
theorem inconsistent_subset_and_degrade_witness :
    ((∀ b ∈ c6out.inconsistent, b ∈ c6out.balls) ∧
      (c6out.empirical_zone = none → c6out.inconsistent = [])) ∧
    (∃ res, generate_plot_for_game c6pitches = .ok res ∧
      ∀ out, res = some out → out.empirical_zone = none ∧ out.inconsistent = []) :=
  ⟨(inconsistent_subset_and_degrade c6pitches).1 c6out (by decide!),
   (inconsistent_subset_and_degrade c6pitches).2 (by decide)⟩

/-- Claim C7: membership in each bucket is characterized exactly — the
four equality buckets by literal string equality and the in-play bucket
by the literal prefix "In play". -/
theorem bucket_membership (pd : List PitchRecord) (r : PitchRecord) :
    (r ∈ ballsOf pd ↔ r ∈ pd ∧ r.call = "Ball") ∧
    (r ∈ calledStrikesOf pd ↔ r ∈ pd ∧ r.call = "Called Strike") ∧
    (r ∈ swingingStrikesOf pd ↔ r ∈ pd ∧ r.call = "Swinging Strike") ∧
    (r ∈ foulsOf pd ↔ r ∈ pd ∧ r.call = "Foul") ∧
    (r ∈ inPlayOf pd ↔ r ∈ pd ∧ strStartsWith r.call ("In play") = true) := by
  simp [ballsOf, calledStrikesOf, swingingStrikesOf, foulsOf, inPlayOf, List.mem_filter]

/-- Each call string satisfies exactly one of the six bucket predicates. -/
theorem exactlyOneBucket (s : String) :
    (s == "Ball").toNat + (s == "Called Strike").toNat +
    (s == "Swinging Strike").toNat + (s == "Foul").toNat +
    (strStartsWith s ("In play")).toNat +
    (!(s == "Ball" || s == "Called Strike" || s == "Swinging Strike" ||
       s == "Foul" || strStartsWith s ("In play"))).toNat = 1 := by
  by_cases h1 : s = "Ball"
  · subst h1; decide
  by_cases h2 : s = "Called Strike"
  · subst h2; decide
  by_cases h3 : s = "Swinging Strike"
  · subst h3; decide
  by_cases h4 : s = "Foul"
  · subst h4; decide
  have e1 : (s == "Ball") = false := beq_eq_false_iff_ne.mpr h1
  have e2 : (s == "Called Strike") = false := beq_eq_false_iff_ne.mpr h2
  have e3 : (s == "Swinging Strike") = false := beq_eq_false_iff_ne.mpr h3
  have e4 : (s == "Foul") = false := beq_eq_false_iff_ne.mpr h4
  by_cases h5 : strStartsWith s ("In play") = true
  · simp [e1, e2, e3, e4, h5]
  · have h5f : strStartsWith s ("In play") = false := by
      revert h5
      cases strStartsWith s ("In play") <;> simp
    simp [e1, e2, e3, e4, h5f]

/-- Filter length over a cons, as a `Bool.toNat` contribution. -/
theorem filter_length_cons {α : Type} (p : α → Bool) (a : α) (l : List α) :
    ((a :: l).filter p).length = (p a).toNat + (l.filter p).length := by
  cases h : p a
  · simp [List.filter_cons, h]
  · simp [List.filter_cons, h]
    omega

/-- Claim C8: the six buckets are a strict partition — their sizes sum to
the record count, and every call string satisfies exactly one of the six
bucket predicates. -/
theorem classification_partition (pd : List PitchRecord) :
    ((ballsOf pd).length + (calledStrikesOf pd).length +
      (swingingStrikesOf pd).length + (foulsOf pd).length +
      (inPlayOf pd).length + (unknownsOf pd).length = pd.length) ∧
    (∀ r : PitchRecord,
      (r.call == "Ball").toNat + (r.call == "Called Strike").toNat +
      (r.call == "Swinging Strike").toNat + (r.call == "Foul").toNat +
      (strStartsWith r.call ("In play")).toNat +
      (!(r.call == "Ball" || r.call == "Called Strike" ||
         r.call == "Swinging Strike" || r.call == "Foul" ||
         strStartsWith r.call ("In play"))).toNat = 1) := by
  refine ⟨?_, fun r => exactlyOneBucket r.call⟩
  induction pd with
  | nil => rfl
  | cons a t ih =>
    have h := exactlyOneBucket a.call
    simp only [ballsOf, calledStrikesOf, swingingStrikesOf, foulsOf, inPlayOf,
      unknownsOf, filter_length_cons, List.length_cons] at ih ⊢
    omega

/-- Claim C4 (evaluation at the failing input): with one home pitch
followed in feed order by one away pitch, the split pipeline highlights
the home pitch, while the last element of the record sequence in feed
order is the away pitch. -/
theorem split_last_pitch_divergence :
    get_play_data_split c4plays = some ([c4homeRec], [c4awayRec]) ∧
    feedPitches c4plays = [c4homeRec, c4awayRec] ∧
    (feedPitches c4plays).getLast? = some c4awayRec ∧
    prod_last_pitch_choice [c4homeRec] [c4awayRec] = some c4homeRec ∧
    c4homeRec ≠ c4awayRec := by decide!

/-- Claim C9: for a pitch-flagged event, a record is emitted iff the
event carries both plate-crossing coordinates, and absent type/call
labels default to "Unknown" in the emitted record; events lacking
coordinates are skipped (the extractor is total and returns nothing). -/
theorem extraction_record_conditions (e : PlayEvent) (hp : e.isPitch = true) :
    ((extractEvent e).isSome = true ↔
      ∃ pd c, e.pitchData = some pd ∧ pd.coordinates = some c ∧
        c.pX.isSome = true ∧ c.pZ.isSome = true) ∧
    (∀ r, extractEvent e = some r →
      (e.details.type.bind LabelObj.description = none → r.pitch_type = "Unknown") ∧
      (e.details.call.bind LabelObj.description = none → r.call = "Unknown")) := by
  constructor
  · cases hpd : e.pitchData with
    | none => simp [extractEvent, hp, hpd]
    | some pd =>
      cases hc : pd.coordinates with
      | none => simp [extractEvent, hp, hpd, hc]
      | some c =>
        cases hx : c.pX with
        | none => cases hz : c.pZ <;> simp [extractEvent, hp, hpd, hc, hx, hz]
        | some px => cases hz : c.pZ <;> simp [extractEvent, hp, hpd, hc, hx, hz]
  · intro r hr
    cases hpd : e.pitchData with
    | none => simp [extractEvent, hp, hpd] at hr
    | some pd =>
      cases hc : pd.coordinates with
      | none => simp [extractEvent, hp, hpd, hc] at hr
      | some c =>
        cases hx : c.pX with
        | none => cases hz : c.pZ <;> simp [extractEvent, hp, hpd, hc, hx, hz] at hr
        | some px =>
          cases hz : c.pZ with
          | none => simp [extractEvent, hp, hpd, hc, hx, hz] at hr
          | some pz =>
            simp only [extractEvent, hp, hpd, hc, hx, hz, if_true] at hr
            simp only [Option.some.injEq] at hr
            subst hr
            constructor
            · intro hnt
              show pitchTypeOf e = "Unknown"
              unfold pitchTypeOf
              cases ht : e.details.type with
              | none => rfl
              | some t =>
                rw [ht] at hnt
                have hnt2 : t.description = none := hnt
                show (match t.description with
                  | some d => d
                  | none => "Unknown") = "Unknown"
                rw [hnt2]
            · intro hnc
              show umpireCallOf e = "Unknown"
              unfold umpireCallOf
              cases hcall : e.details.call with
              | none => rfl
              | some cl =>
                rw [hcall] at hnc
                have hnc2 : cl.description = none := hnc
                show (match cl.description with
                  | some d => d
                  | none => "Unknown") = "Unknown"
                rw [hnc2]

/-- Witness for the theorem of claim C9: the concrete labelless event with
coordinates yields a record whose type and call are "Unknown". -/
theorem extraction_record_conditions_witness :
    c9rec.pitch_type = "Unknown" ∧ c9rec.call = "Unknown" := by
  have h := (extraction_record_conditions c9event (by decide)).2 c9rec (by decide!)
  exact ⟨h.1 (by decide), h.2 (by decide)⟩

/-- Claim C10: a successful extraction always returns a non-empty pitch
sequence (in the split variant, the home and away lists cannot both be
empty), so every last-pitch lookup is evaluated on a non-empty list and
is defined. -/
theorem last_pitch_access_safe :
    (∀ plays ps, get_play_data plays = some ps →
      ps ≠ [] ∧ ps.getLast?.isSome = true) ∧
    (∀ ps out, generate_plot_for_game ps = .ok (some out) →
      out.last_pitch.isSome = true) ∧
    (∀ plays home away, get_play_data_split plays = some (home, away) →
      home ++ away ≠ [] ∧ (prod_last_pitch_choice home away).isSome = true) := by
  refine ⟨?_, ?_, ?_⟩
  · intro plays ps h
    unfold get_play_data at h
    by_cases hemp : (feedPitches plays).isEmpty = true
    · rw [if_pos hemp] at h
      exact absurd h (by simp)
    · rw [if_neg hemp] at h
      simp only [Option.some.injEq] at h
      subst h
      have hne : feedPitches plays ≠ [] := by
        intro hcontr
        exact hemp (List.isEmpty_iff.mpr hcontr)
      exact ⟨hne, List.getLast?_isSome.mpr hne⟩
  · intro ps out h
    by_cases hemp : ps.isEmpty = true
    · unfold generate_plot_for_game at h
      rw [if_pos hemp] at h
      exact absurd h (by simp)
    · unfold generate_plot_for_game at h
      rw [if_neg hemp] at h
      have hne : ps ≠ [] := by
        intro hcontr
        exact hemp (List.isEmpty_iff.mpr hcontr)
      cases hz : add_umpire_strike_zone (calledStrikesOf ps) (ballsOf ps) with
      | error e =>
        rw [hz] at h
        exact absurd h (by simp)
      | ok z =>
        rw [hz] at h
        cases z with
        | none =>
          simp only [Except.ok.injEq, Option.some.injEq] at h
          subst h
          simp only [basePlotOutput]
          exact List.getLast?_isSome.mpr hne
        | some pz =>
          obtain ⟨poly, inc⟩ := pz
          simp only [Except.ok.injEq, Option.some.injEq] at h
          subst h
          simp only [basePlotOutput]
          exact List.getLast?_isSome.mpr hne
  · intro plays home away h
    unfold get_play_data_split at h
    by_cases hemp : ((splitPitches plays).1.isEmpty && (splitPitches plays).2.isEmpty) = true
    · rw [if_pos hemp] at h
      exact absurd h (by simp)
    · rw [if_neg hemp] at h
      simp only [Option.some.injEq] at h
      rw [Bool.and_eq_true] at hemp
      have hsplit : (splitPitches plays).1 = home ∧ (splitPitches plays).2 = away := by
        rw [h]
        exact ⟨rfl, rfl⟩
      obtain ⟨h1, h2⟩ := hsplit
      rw [h1, h2] at hemp
      constructor
      · intro hcontr
        rcases List.append_eq_nil.mp hcontr with ⟨hh, ha⟩
        exact hemp ⟨List.isEmpty_iff.mpr hh, List.isEmpty_iff.mpr ha⟩
      · unfold prod_last_pitch_choice
        rcases hhome : home with _ | ⟨x, xs⟩
        · have hane : away ≠ [] := by
            intro hcontr
            exact hemp ⟨by simp [hhome], List.isEmpty_iff.mpr hcontr⟩
          simp only [List.isEmpty_nil, Bool.not_true, Bool.false_eq_true, if_false]
          rw [if_pos (by simpa using hane)]
          exact List.getLast?_isSome.mpr hane
        · rw [if_pos (by simp)]
          exact List.getLast?_isSome.mpr (by simp)

/-- Witness for the theorem of claim C10 at a concrete two-play feed. -/
theorem last_pitch_access_safe_witness :
    (([c10homeRec, c10awayRec] : List PitchRecord) ≠ [] ∧
      ([c10homeRec, c10awayRec] : List PitchRecord).getLast?.isSome = true) ∧
    c10out.last_pitch.isSome = true ∧
    (([c10homeRec] : List PitchRecord) ++ [c10awayRec] ≠ [] ∧
      (prod_last_pitch_choice [c10homeRec] [c10awayRec]).isSome = true) :=
  ⟨last_pitch_access_safe.1 c10plays [c10homeRec, c10awayRec] (by decide!),
   last_pitch_access_safe.2.1 [c10homeRec, c10awayRec] c10out (by decide!),
   last_pitch_access_safe.2.2 c10plays [c10homeRec] [c10awayRec] (by decide!)⟩

end UmpPitch
